import Mathlib

/-!
# Verification of the epscraper acquisition pipeline

Shallow embedding of the epscraper repository's discovery/download code and
proofs about it.  Each Python function that the claims touch is translated
into an executable Lean definition operating over explicit state:

* the destination directory is an association list `FS` from filename to the
  byte content of the file;
* the browser, HTTP client and listing DOM are oracles packaged in
  environment structures (`PDEnv`, `Listing`);
* the side effects the properties speak about (navigation, gate clicks,
  HTTP fetches, file writes, work-unit marks) are recorded in event traces.

Sources embedded: `src/superdownloader.py` (`PDFDownloader`,
`download_pdfs`), `src/epscraper/downloader.py` (`EpsteinFilesDownloader`),
`src/epscraper/supersearcher.py` (`PDFSearcher.search_and_extract`,
`save_urls_to_file`), `src/superscraper.py` (`scrape_pdf_urls`) and
`src/epscrape/supermain.py` (`main`, `save_urls_to_file`,
`generate_dataset_urls`).
-/

namespace Epscraper

/-! ## Bytes and the PDF magic marker -/

/-- Byte sequences are lists of naturals (each < 256 in practice). -/
abbrev Bytes := List Nat

/-- The canonical PDF magic bytes, `%PDF`. -/
def pdfMagic : Bytes := [37, 80, 68, 70]

/-- Embedding of Python's `content.startswith(b'%PDF')`. -/
def startsWithMagic (bs : Bytes) : Bool := pdfMagic.isPrefixOf bs

/-! ## URL parsing helpers

Embedding of the parts of `urllib.parse` that the downloaders use:
`urlparse(url).path`, `os.path.basename` / `split('/')[-1]`, and `unquote`.
-/

/-- Embedding of Python's `str.endswith` (a case-sensitive suffix test). -/
def pyEndsWith (s suffix : String) : Bool := suffix.data.isSuffixOf s.data

/-- Embedding of Python's `str.startswith` on a one-character marker. -/
def pyStartsWith (s pre : String) : Bool := pre.data.isPrefixOf s.data

/-- Embedding of Python's `str.lower`. -/
def pyLower (s : String) : String := String.mk (s.data.map Char.toLower)

/-- Embedding of Python's `str.strip`: remove leading and trailing
whitespace. -/
def pyStrip (s : String) : String :=
  String.mk (((s.data.dropWhile Char.isWhitespace).reverse.dropWhile
    Char.isWhitespace).reverse)

/-- Find the first occurrence of `://` in a character list and return what
follows it, if any. -/
def afterSchemeSep : List Char → Option (List Char)
  | ':' :: '/' :: '/' :: rest => some rest
  | _ :: rest => afterSchemeSep rest
  | [] => none

/-- Embedding of `urllib.parse.urlparse(url).path`: remove the fragment
(after the first `#`), the query (after the first `?`), then the
scheme/authority (everything through the first `://` and the netloc up to
the next `/`).  A URL without `://` is treated as all path, as `urlparse`
does for the scheme-less references appearing here. -/
def urlPath (url : String) : String :=
  let noFrag := url.data.takeWhile (· ≠ '#')
  let noQuery := noFrag.takeWhile (· ≠ '?')
  match afterSchemeSep noQuery with
  | some rest => String.mk (rest.dropWhile (· ≠ '/'))
  | none => String.mk noQuery

/-- The last `/`-separated segment of a path (`path.split('/')[-1]`,
also `os.path.basename` for the slash-separated paths used here). -/
def lastSegment (s : String) : String :=
  String.mk ((s.data.reverse.takeWhile (· ≠ '/')).reverse)

/-- Value of a hexadecimal digit, if the character is one. -/
def hexVal (c : Char) : Option Nat :=
  if '0' ≤ c ∧ c ≤ '9' then some (c.toNat - 48)
  else if 'a' ≤ c ∧ c ≤ 'f' then some (c.toNat - 87)
  else if 'A' ≤ c ∧ c ≤ 'F' then some (c.toNat - 55)
  else none

/-- Embedding of `urllib.parse.unquote` on characters: decode every valid
`%XX` escape, leave invalid escapes untouched. -/
def unquoteChars : List Char → List Char
  | [] => []
  | '%' :: a :: b :: rest =>
    match hexVal a, hexVal b with
    | some x, some y => Char.ofNat (16 * x + y) :: unquoteChars rest
    | _, _ => '%' :: unquoteChars (a :: b :: rest)
  | c :: rest => c :: unquoteChars rest

/-- Embedding of `urllib.parse.unquote` on strings. -/
def unquote (s : String) : String := String.mk (unquoteChars s.data)

/-- Filename derivation of `PDFDownloader.extract_filename`
(`src/superdownloader.py`): last path segment, percent-decoded. -/
def extract_filename (url : String) : String := unquote (lastSegment (urlPath url))

/-- Filename derivation of `EpsteinFilesDownloader.download_pdf`
(`src/epscraper/downloader.py`): `os.path.basename(urlparse(pdf_url).path)`,
with no percent-decoding. -/
def efd_filename (url : String) : String := lastSegment (urlPath url)

/-! ## Destination directory -/

/-- The destination directory as an association list from filename to file
content.  A fresh write shadows (overwrites) an earlier file of the same
name. -/
abbrev FS := List (String × Bytes)

/-! ## `EpsteinFilesDownloader.download_pdf` (`src/epscraper/downloader.py`)

The HTTP session is an oracle `fetch : String → Option Bytes`; `none`
stands for a `requests.RequestException` (including non-2xx raised by
`raise_for_status`), `some content` for a successful response body.
-/

/-- Outcome of one `EpsteinFilesDownloader.download_pdf` call. -/
inductive EFDOutcome where
  /-- The destination file already existed; the URL was skipped. -/
  | alreadyExists : EFDOutcome
  /-- The response body was written to the destination file. -/
  | saved : EFDOutcome
  /-- The request failed; any partial file was unlinked. -/
  | failed : EFDOutcome
deriving DecidableEq, Repr

/-- Embedding of `EpsteinFilesDownloader.download_pdf`: skip when the
destination file exists (any size), otherwise fetch and write the body
unconditionally — the code performs no payload validation.  Returns the
outcome, the updated directory, and whether network access was performed.
On a failed request the partially written file is unlinked, so the
directory is returned unchanged. -/
def EFD_download_pdf (fetch : String → Option Bytes) (fs : FS) (url : String) :
    EFDOutcome × FS × Bool :=
  let filename := efd_filename url
  if (List.lookup filename fs).isSome then
    (.alreadyExists, fs, false)
  else
    match fetch url with
    | some content => (.saved, (filename, content) :: fs, true)
    | none => (.failed, fs, true)

/-- Folding `EpsteinFilesDownloader.download_pdf` over a list of PDF URLs,
as the inner loop of `download_from_urls` does for one page.  Returns the
final directory, the per-URL outcomes in order, and the number of URLs for
which network access was performed. -/
def EFD_download_list (fetch : String → Option Bytes) (fs : FS) :
    List String → FS × List EFDOutcome × Nat
  | [] => (fs, [], 0)
  | u :: rest =>
    let r := EFD_download_pdf fetch fs u
    let r2 := EFD_download_list fetch r.2.1 rest
    (r2.1, r.1 :: r2.2.1, (if r.2.2 then 1 else 0) + r2.2.2)

/-! ## `PDFDownloader` (`src/superdownloader.py`)

The browser session and HTTP client are oracles in `PDEnv`.  The one piece
of browser state the code depends on is whether the age gate has already
been passed (its cookies are kept by the driver for the whole session), a
`Bool` threaded through the calls.  The age-gate button is present on a
navigation exactly when the site uses a gate and the session has not yet
passed it; when the 10-second `WebDriverWait` finds no button the code
catches the timeout and proceeds.
-/

/-- Oracles for one `PDFDownloader` browser/HTTP session. -/
structure PDEnv where
  /-- Whether the site shows the age-verification gate to a session that
  has not yet passed it. -/
  hasGate : Bool
  /-- Whether, after navigating to the URL (gate already handled), the
  rendered `page_source` still contains `<html` (i.e. the browser shows an
  HTML page rather than the raw PDF). -/
  pageIsHtml : String → Bool
  /-- The `requests` fetch of a URL carrying the session cookies:
  `(status_code, content)`. -/
  httpFetch : String → Nat × Bytes

/-- Observable side effects of `PDFDownloader` operations. -/
inductive PDEv where
  /-- `uc.Chrome(...)`: the browser session was opened. -/
  | browserOpen : PDEv
  /-- `driver.get(url)`: browser navigation (network access). -/
  | navigate (url : String) : PDEv
  /-- The age-verification `Yes` button was clicked. -/
  | gateClick : PDEv
  /-- `session.get(url)`: plain HTTP fetch with the session cookies. -/
  | httpGet (url : String) : PDEv
  /-- The named file was written in the output directory. -/
  | writeFile (name : String) : PDEv
deriving DecidableEq, Repr

/-- Embedding of `PDFDownloader.download_pdf`: navigate to the URL; if the
age gate appears, click it and navigate again; if the rendered page is
HTML, replay the request through `requests` with the session cookies and
keep the body only when the status is 200 and the content starts with
`%PDF`.  Returns `(success, gatePassed, directory, events)`.  There is no
skip-if-present check: navigation happens for every URL. -/
def PD_download_pdf (env : PDEnv) (passed : Bool) (fs : FS) (url : String) :
    Bool × Bool × FS × List PDEv :=
  let filename := extract_filename url
  let gateShown := env.hasGate && !passed
  let passed2 := passed || gateShown
  let navEvs : List PDEv :=
    if gateShown then [.navigate url, .gateClick, .navigate url] else [.navigate url]
  if env.pageIsHtml url then
    let r := env.httpFetch url
    if r.1 == 200 && startsWithMagic r.2 then
      (true, passed2, (filename, r.2) :: fs, navEvs ++ [.httpGet url, .writeFile filename])
    else
      (false, passed2, fs, navEvs ++ [.httpGet url])
  else
    (false, passed2, fs, navEvs)

/-- The download loop shared by `download_from_file` and
`download_from_multiple_files`: fold `download_pdf` over the URL list,
counting successes.  Returns `(successCount, gatePassed, directory,
events)`. -/
def PD_download_list (env : PDEnv) (passed : Bool) (fs : FS) :
    List String → Nat × Bool × FS × List PDEv
  | [] => (0, passed, fs, [])
  | u :: rest =>
    let r := PD_download_pdf env passed fs u
    let r2 := PD_download_list env r.2.1 r.2.2.1 rest
    ((if r.1 then 1 else 0) + r2.1, r2.2.1, r2.2.2.1, r.2.2.2 ++ r2.2.2.2)

/-- URL-file line parsing shared by the readers in `superdownloader.py`:
strip each line, keep the non-empty ones that do not start with `#`. -/
def parseUrlLines (ls : List String) : List String :=
  (ls.map pyStrip).filter (fun l => !(l == "") && !(pyStartsWith l "#"))

/-- Embedding of the public entry point `download_pdfs`
(`src/superdownloader.py`): the URL-file list (already normalized from the
string-or-list argument), the files' contents given as `ufs`, the output
directory `fs`.  Each named file must exist, checked before the
`PDFDownloader` context manager is entered — so a missing file raises
`FileNotFoundError` before the browser opens and before anything is
written.  Otherwise the URLs of all files are downloaded in one browser
session. -/
def download_pdfs (env : PDEnv) (ufs : List (String × List String))
    (urlFiles : List String) (fs : FS) : Except String Nat × FS × List PDEv :=
  match urlFiles.find? (fun f => (List.lookup f ufs).isNone) with
  | some missing => (.error ("URL file not found: " ++ missing), fs, [])
  | none =>
    let urls := urlFiles.foldr
      (fun f acc => parseUrlLines ((List.lookup f ufs).getD []) ++ acc) []
    let r := PD_download_list env false fs urls
    (.ok r.1, r.2.2.1, .browserOpen :: r.2.2.2)

/-! ## `PDFSearcher.search_and_extract` (`src/epscraper/supersearcher.py`)

The rendered listing is abstracted as a `Listing`: what
`extract_pdf_urls`, `has_next_page` and `click_next_page` observe on each
page, the browser state being identified with the number of the page it
currently shows.  The traversal loops are given a fuel argument (the
number of loop iterations still observed); every property proved below
holds for every fuel value, and on finite listings a large enough fuel
reproduces the Python run exactly.
-/

/-- The per-page observations made by a listing/search session. -/
structure Listing where
  /-- The URLs that `extract_pdf_urls` collects on page `p`. -/
  refsOn : Nat → List String
  /-- Whether `has_next_page` finds an enabled next control on page `p`. -/
  hasNext : Nat → Bool
  /-- Whether `click_next_page` reports success on page `p`. -/
  clickOk : Nat → Bool

/-- Observable steps of one discovery run. -/
inductive SEv where
  /-- `driver.get(search_url)`: navigation to the listing root. -/
  | nav : SEv
  /-- `handle_age_verification()` was invoked. -/
  | gateCheck : SEv
  /-- `perform_search(...)` was invoked. -/
  | search : SEv
  /-- `click_next_page()` was invoked while the browser showed page `p`. -/
  | clickNext (p : Nat) : SEv
  /-- `extract_pdf_urls()` was run on page `p`. -/
  | extract (p : Nat) : SEv
deriving DecidableEq, Repr

/-- The `while page_num < start_page and self.has_next_page()` skip loop:
click through pages before `start_page` without extracting.  Returns the
page reached (`none` when a click failed, which makes `search_and_extract`
return the urls collected so far, i.e. none) and the events. -/
def skipLoop (L : Listing) (startPage : Nat) : Nat → Nat → Option Nat × List SEv
  | 0, _ => (none, [])
  | fuel + 1, page =>
    if page < startPage && L.hasNext page then
      if L.clickOk page then
        let r := skipLoop L startPage fuel (page + 1)
        (r.1, .clickNext page :: r.2)
      else (none, [.clickNext page])
    else (some page, [])

/-- The `end_page` guard of the main loop: `end_page is not None and
page_num >= end_page`. -/
def reachedEnd (endPage : Option Nat) (page : Nat) : Bool :=
  match endPage with
  | some e => decide (e ≤ page)
  | none => false

/-- The `while self.has_next_page()` extraction loop, entered after the
current page has been extracted: stop at `end_page`, otherwise click next
(while still on `page`) and extract page `page + 1`. -/
def extractLoop (L : Listing) (endPage : Option Nat) :
    Nat → Nat → List String × List SEv
  | 0, _ => ([], [])
  | fuel + 1, page =>
    if L.hasNext page then
      if reachedEnd endPage page then ([], [])
      else if L.clickOk page then
        let r := extractLoop L endPage fuel (page + 1)
        (L.refsOn (page + 1) ++ r.1, .clickNext page :: .extract (page + 1) :: r.2)
      else ([], [.clickNext page])
    else ([], [])

/-- Embedding of `PDFSearcher.search_and_extract`: navigate to the search
root, handle the age gate once, perform the search, click through pages
before `start_page`, extract the page then reached (whatever its number),
and continue extracting until `end_page` is reached or no enabled next
control exists. -/
def search_and_extract (L : Listing) (startPage : Nat) (endPage : Option Nat)
    (fuel : Nat) : List String × List SEv :=
  let pre : List SEv := [.nav, .gateCheck, .search]
  match skipLoop L startPage fuel 1 with
  | (none, evs) => ([], pre ++ evs)
  | (some page, evs) =>
    let r := extractLoop L endPage fuel page
    (L.refsOn page ++ r.1, pre ++ evs ++ (.extract page :: r.2))

/-! ## Reference persistence (`save_urls_to_file`)

Two variants are embedded.  `src/epscraper/supersearcher.py` opens the
file in append mode and writes every given URL, one per line;
`src/epscrape/supermain.py` opens it in write mode, replacing the whole
file with the given URLs.  The durable log is the list of its lines, in
file order.  Neither variant deduplicates, against the log or within the
input.
-/

/-- Embedding of `save_urls_to_file` in `src/epscraper/supersearcher.py`
(mode `'a'`): the log after appending every given URL. -/
def save_urls_append (log urls : List String) : List String := log ++ urls

/-- Embedding of `save_urls_to_file` in `src/epscrape/supermain.py`
(mode `'w'`): the log is replaced by the given URLs. -/
def save_urls_write (_log urls : List String) : List String := urls

/-- The count the appending variant reports (`Appended {len(urls)} URLs`). -/
def save_urls_reported (urls : List String) : Nat := urls.length

/-- Reading the log back (`download_from_file` reads the lines in order). -/
def load_all (log : List String) : List String := log

/-- Modelled from the spec: the count `ReferenceStore.append` is specified
to return — the number of distinct URLs in the input that are not already
in the log.  Stated only to compare the code's reported count against. -/
def spec_distinctNewCount (log urls : List String) : Nat :=
  ((urls.filter (fun u => decide (¬ u ∈ log))).dedup).length

/-! ## Anchor extraction (`extract_pdf_urls`, `scrape_pdf_urls`) -/

/-- Embedding of `PDFSearcher.extract_pdf_urls`'s per-anchor test
(`src/epscraper/supersearcher.py`): each anchor's `href` attribute as the
browser reports it (`none` when the attribute is missing, otherwise the
browser-resolved absolute URL); keep it when it is truthy (non-empty) and
ends with `.pdf` — a case-sensitive test. -/
def extract_pdf_urls (links : List (Option String)) : List String :=
  links.filterMap (fun h =>
    match h with
    | some href => if href = "" then none
      else if pyEndsWith href ".pdf" then some href else none
    | none => none)

/-- Embedding of `urllib.parse.urljoin` restricted to the shapes occurring
here: an empty reference yields the base, an absolute reference (with a
scheme) stands alone, a root-relative reference is resolved against the
base's scheme and host, any other reference against the base's directory. -/
def urljoin (base rel : String) : String :=
  if rel = "" then base
  else if (afterSchemeSep rel.data).isSome then rel
  else if pyStartsWith rel "/" then
    (match afterSchemeSep base.data with
     | some rest =>
       String.mk (base.data.takeWhile (· ≠ ':') ++
         ':' :: '/' :: '/' :: rest.takeWhile (· ≠ '/'))
     | none => "") ++ rel
  else String.mk ((base.data.reverse.dropWhile (· ≠ '/')).reverse) ++ rel

/-- Embedding of `scrape_pdf_urls` (`src/superscraper.py`): over the
`href` attributes of all anchors that have one, keep those that end with
`.pdf` (case-sensitive, tested on the raw href before resolution) and
resolve them against the page URL. -/
def scrape_pdf_urls (pageUrl : String) (hrefs : List String) : List String :=
  hrefs.filterMap (fun href =>
    if pyEndsWith href ".pdf" then some (urljoin pageUrl href) else none)

/-! ## The orchestrator `main` (`src/epscrape/supermain.py`)

Inputs: the completed-set file contents (`data/downloaded.txt`, a list of
dataset numbers), the requested range, a scraping oracle giving the PDF
URLs found on each dataset page, the download session oracles, and a flag
`fatal` for an exception escaping `download_pdfs` (e.g. the browser
failing to start).  The run returns the process exit code and the trace of
observable effects.  The URL list is written to `data/all_pdfs.txt` and
read back by `download_pdfs` (the file has just been written, so its
existence check passes); the write/read round trip is the
`parseUrlLines` application below.
-/

/-- Observable effects of one orchestrator run. -/
inductive MEv where
  /-- `scrape_pdf_urls` ran over the page of dataset `n`. -/
  | scrapeUnit (n : Nat) : MEv
  /-- An effect of the download phase. -/
  | dl (e : PDEv) : MEv
  /-- `save_downloaded_dataset(n)`: dataset `n` was appended to the
  durable completed set. -/
  | markCompleted (n : Nat) : MEv
deriving DecidableEq, Repr

/-- Embedding of `generate_dataset_urls`: the dataset numbers of
`range(start, end + 1)` that are not in the completed set (their URLs are
determined by the number, so only the numbers are kept). -/
def datasetsToProcess (downloaded : List Nat) (startN endN : Nat) : List Nat :=
  (List.range' startN (endN + 1 - startN)).filter (fun i => decide (¬ i ∈ downloaded))

/-- The flattened URL list of `main`: each dataset's scraped URLs, in
dataset order. -/
def collectUrls (scrape : Nat → List String) : List Nat → List String
  | [] => []
  | n :: rest => scrape n ++ collectUrls scrape rest

/-- Embedding of `main` (`src/epscrape/supermain.py`): range check, skip
completed datasets (exit 0 when none remain), scrape each remaining
dataset page (exit 0 when no PDF URL was found), write the URL file, then
download every URL in one session and only afterwards mark every processed
dataset completed; exit 0 exactly when at least one download succeeded.
An exception during the download phase is caught and leads to exit 1
without marking anything. -/
def supermain (env : PDEnv) (fs : FS) (downloaded : List Nat)
    (startN endN : Nat) (scrape : Nat → List String) (fatal : Bool) :
    Nat × List MEv :=
  if endN < startN then (1, [])
  else
    let ds := datasetsToProcess downloaded startN endN
    if ds.isEmpty then (0, [])
    else
      let scrapeEvs := ds.map MEv.scrapeUnit
      let urls := collectUrls scrape ds
      if urls.isEmpty then (0, scrapeEvs)
      else if fatal then (1, scrapeEvs)
      else
        let r := PD_download_list env false fs (parseUrlLines urls)
        ((if 0 < r.1 then 0 else 1),
          scrapeEvs ++ (MEv.dl .browserOpen :: r.2.2.2.map MEv.dl)
            ++ ds.map MEv.markCompleted)

/-- Whether an orchestrator event is a download attempt (a browser
navigation to a reference). -/
def isAttemptEv : MEv → Bool
  | .dl (.navigate _) => true
  | _ => false

/-- Whether an orchestrator event marks a work unit completed. -/
def isMarkEv : MEv → Bool
  | .markCompleted _ => true
  | _ => false

/-! ## Helper lemmas about the downloader models -/

/-- Looking a key up after consing a file onto the directory still
succeeds when it succeeded before. -/
lemma lookup_cons_isSome {k f : String} {c : Bytes} {fs : FS}
    (h : (List.lookup k fs).isSome = true) :
    (List.lookup k ((f, c) :: fs)).isSome = true := by
  simp only [List.lookup]
  cases k == f <;> simp [h]

/-- A `download_pdf` call on an already-present destination file is a
pure skip: outcome `alreadyExists`, directory unchanged, no network
access. -/
lemma EFD_pdf_present (fetch : String → Option Bytes) (fs : FS) (url : String)
    (h : (List.lookup (efd_filename url) fs).isSome = true) :
    EFD_download_pdf fetch fs url = (.alreadyExists, fs, false) := by
  simp [EFD_download_pdf, h]

/-- One `download_pdf` call never removes a present file. -/
lemma EFD_pdf_lookup_mono (fetch : String → Option Bytes) (fs : FS)
    (url k : String) (h : (List.lookup k fs).isSome = true) :
    (List.lookup k (EFD_download_pdf fetch fs url).2.1).isSome = true := by
  unfold EFD_download_pdf
  by_cases hp : (List.lookup (efd_filename url) fs).isSome = true
  · simpa [hp] using h
  · cases hf : fetch url with
    | none => simpa [hp, hf] using h
    | some c => simpa [hp, hf] using lookup_cons_isSome (c := c) (f := efd_filename url) h

/-- A download run never removes a present file. -/
lemma EFD_list_lookup_mono (fetch : String → Option Bytes) :
    ∀ (urls : List String) (fs : FS) (k : String),
      (List.lookup k fs).isSome = true →
      (List.lookup k (EFD_download_list fetch fs urls).1).isSome = true := by
  intro urls
  induction urls with
  | nil => intro fs k h; simpa [EFD_download_list] using h
  | cons u rest ih =>
    intro fs k h
    simpa [EFD_download_list] using ih _ k (EFD_pdf_lookup_mono fetch fs u k h)

/-- After a run in which every fetch succeeds, the destination file of
every URL of the run is present. -/
lemma EFD_list_present_after (fetch : String → Option Bytes) :
    ∀ (urls : List String) (fs : FS) (u : String), u ∈ urls →
      (fetch u).isSome = true →
      (List.lookup (efd_filename u)
        (EFD_download_list fetch fs urls).1).isSome = true := by
  intro urls
  induction urls with
  | nil => intro fs u h; simp at h
  | cons v rest ih =>
    intro fs u hmem hf
    rcases List.mem_cons.mp hmem with h | h
    · subst h
      have hstep : (List.lookup (efd_filename u)
          (EFD_download_pdf fetch fs u).2.1).isSome = true := by
        unfold EFD_download_pdf
        by_cases hp : (List.lookup (efd_filename u) fs).isSome = true
        · simp [hp]
        · cases hc : fetch u with
          | none => simp [hc] at hf
          | some c => simp [hp, hc, List.lookup]
      simpa [EFD_download_list] using
        EFD_list_lookup_mono fetch rest _ _ hstep
    · simpa [EFD_download_list] using ih _ u h hf

/-- A run over URLs whose destination files are all present skips every
URL, downloads nothing, and leaves the directory unchanged. -/
lemma EFD_list_all_present (fetch : String → Option Bytes) :
    ∀ (urls : List String) (fs : FS),
      (∀ u ∈ urls, (List.lookup (efd_filename u) fs).isSome = true) →
      EFD_download_list fetch fs urls
        = (fs, urls.map (fun _ => EFDOutcome.alreadyExists), 0) := by
  intro urls
  induction urls with
  | nil => intro fs _; simp [EFD_download_list]
  | cons u rest ih =>
    intro fs h
    have h1 := EFD_pdf_present fetch fs u (h u (List.mem_cons_self u rest))
    have h2 := ih fs (fun v hv => h v (List.mem_cons_of_mem u hv))
    simp [EFD_download_list, h1, h2]

/-- Every `PDFDownloader.download_pdf` call navigates to its URL. -/
lemma PD_pdf_nav_mem (env : PDEnv) (passed : Bool) (fs : FS) (url : String) :
    PDEv.navigate url ∈ (PD_download_pdf env passed fs url).2.2.2 := by
  unfold PD_download_pdf
  by_cases hh : env.pageIsHtml url = true <;>
    by_cases hg : (env.hasGate && !passed) = true <;>
    by_cases hf : ((env.httpFetch url).1 == 200
      && startsWithMagic (env.httpFetch url).2) = true <;>
    simp [hh, hg, hf]

/-- Every URL of a download batch is navigated to. -/
lemma PD_list_nav_mem (env : PDEnv) :
    ∀ (urls : List String) (passed : Bool) (fs : FS) (u : String), u ∈ urls →
      PDEv.navigate u ∈ (PD_download_list env passed fs urls).2.2.2 := by
  intro urls
  induction urls with
  | nil => intro _ _ u h; simp at h
  | cons v rest ih =>
    intro passed fs u hmem
    rcases List.mem_cons.mp hmem with h | h
    · subst h
      simpa [PD_download_list] using Or.inl (PD_pdf_nav_mem env passed fs u)
    · simpa [PD_download_list] using Or.inr (ih _ _ u h)

/-- When the site has a gate, the session has passed it after any
`download_pdf` call. -/
lemma PD_pdf_passed_after (env : PDEnv) (passed : Bool) (fs : FS) (url : String)
    (h : env.hasGate = true) : (PD_download_pdf env passed fs url).2.1 = true := by
  unfold PD_download_pdf
  cases passed <;>
    by_cases hh : env.pageIsHtml url = true <;>
    by_cases hf : ((env.httpFetch url).1 == 200
      && startsWithMagic (env.httpFetch url).2) = true <;>
    simp [hh, hf, h]

/-- Number of gate clicks in one `download_pdf` call: one exactly when the
gate button appears (site gated, session not yet passed). -/
lemma PD_pdf_gate_count (env : PDEnv) (passed : Bool) (fs : FS) (url : String) :
    ((PD_download_pdf env passed fs url).2.2.2.count PDEv.gateClick)
      = (if env.hasGate && !passed then 1 else 0) := by
  unfold PD_download_pdf
  rcases hg : env.hasGate && !passed <;>
    by_cases hh : env.pageIsHtml url = true <;>
    by_cases hf : ((env.httpFetch url).1 == 200
      && startsWithMagic (env.httpFetch url).2) = true <;>
    simp [hg, hh, hf, List.count_cons, List.count_append]

/-- A batch run on a session that has already passed the gate clicks it
zero times. -/
lemma PD_list_gate_count_passed (env : PDEnv) :
    ∀ (urls : List String) (fs : FS),
      (PD_download_list env true fs urls).2.2.2.count PDEv.gateClick = 0 := by
  intro urls
  induction urls with
  | nil => simp [PD_download_list]
  | cons u rest ih =>
    intro fs
    have hp : (PD_download_pdf env true fs u).2.1 = true := by
      unfold PD_download_pdf
      by_cases hh : env.pageIsHtml u = true <;>
        by_cases hf : ((env.httpFetch u).1 == 200
          && startsWithMagic (env.httpFetch u).2) = true <;>
        simp [hh, hf]
    simp [PD_download_list, List.count_append, PD_pdf_gate_count, hp, ih]

/-! ## C1 — download idempotence -/

/-- Claim C1, counterexample.  `PDFDownloader.download_pdf`
(`src/superdownloader.py`) has no skip-if-present check: here the derived
destination file `doc.pdf` already exists with non-zero size, yet the call
still navigates to the URL — network access is performed, contradicting
the claimed `AlreadyPresent` skip. -/
theorem C1_counterexample :
    List.lookup "doc.pdf" [("doc.pdf", ([1] : Bytes))] = some [1] ∧
    ([1] : Bytes).length = 1 ∧
    extract_filename "https://h/files/doc.pdf" = "doc.pdf" ∧
    PDEv.navigate "https://h/files/doc.pdf" ∈
      (PD_download_pdf ⟨true, fun _ => true, fun _ => (200, pdfMagic)⟩ false
        [("doc.pdf", [1])] "https://h/files/doc.pdf").2.2.2 := by
  decide

/-- Claim C1, amended: the skip-if-present idempotence holds for
`EpsteinFilesDownloader.download_pdf` (`src/epscraper/downloader.py`),
which skips any reference whose destination file exists — regardless of
size — with no network access; consequently a second run over a reference
list whose first run fetched every reference performs no downloads and
leaves the directory unchanged.  (`PDFDownloader.download_pdf` in
`src/superdownloader.py` instead navigates for every reference, see the
counterexample.) -/
theorem C1_efd_idempotent :
    (∀ (fetch : String → Option Bytes) (fs : FS) (url : String),
      (List.lookup (efd_filename url) fs).isSome = true →
      EFD_download_pdf fetch fs url = (.alreadyExists, fs, false)) ∧
    (∀ (fetch : String → Option Bytes) (fs : FS) (urls : List String),
      (∀ u ∈ urls, (fetch u).isSome = true) →
      EFD_download_list fetch (EFD_download_list fetch fs urls).1 urls
        = ((EFD_download_list fetch fs urls).1,
           urls.map (fun _ => EFDOutcome.alreadyExists), 0)) := by
  constructor
  · exact EFD_pdf_present
  · intro fetch fs urls htotal
    exact EFD_list_all_present fetch urls _
      (fun u hu => EFD_list_present_after fetch urls fs u hu (htotal u hu))

/-- Witness for C1: a concrete skip of a present file, and a concrete
second run that downloads nothing. -/
theorem C1_witness :
    (EFD_download_pdf (fun _ => some pdfMagic) [("a.pdf", [1])] "https://h/a.pdf"
      = (.alreadyExists, [("a.pdf", [1])], false)) ∧
    (EFD_download_list (fun _ => some pdfMagic)
        (EFD_download_list (fun _ => some pdfMagic) [] ["https://h/a.pdf"]).1
        ["https://h/a.pdf"]
      = ((EFD_download_list (fun _ => some pdfMagic) [] ["https://h/a.pdf"]).1,
         [EFDOutcome.alreadyExists], 0)) := by
  constructor
  · exact C1_efd_idempotent.1 _ _ _ (by decide)
  · simpa using C1_efd_idempotent.2 (fun _ => some pdfMagic) [] ["https://h/a.pdf"]
      (by intro u _; rfl)

/-! ## C3 — payload validation -/

/-- Claim C3, counterexample.  `EpsteinFilesDownloader.download_pdf`
(`src/epscraper/downloader.py`) performs no magic-byte validation: a
response body `[60, 104]` (`<h`, not `%PDF`) is written to the destination
file in full, so a non-empty non-PDF file is left at the destination path,
contradicting the claimed `PermanentFailure` with no file written. -/
theorem C3_counterexample :
    startsWithMagic [60, 104] = false ∧
    EFD_download_pdf (fun _ => some [60, 104]) [] "https://h/a.pdf"
      = (.saved, [("a.pdf", [60, 104])], true) ∧
    List.lookup "a.pdf"
      (EFD_download_pdf (fun _ => some [60, 104]) [] "https://h/a.pdf").2.1
      = some [60, 104] ∧
    ([60, 104] : Bytes).length = 2 := by
  decide

/-- Claim C3, amended: the validation behaviour holds for
`PDFDownloader.download_pdf` (`src/superdownloader.py`): when the fetched
response does not have status 200 with a `%PDF`-prefixed body, the call
reports failure and writes nothing (the directory is unchanged), and the
download loop still attempts every URL of the batch.
(`EpsteinFilesDownloader.download_pdf` writes the payload unvalidated, see
the counterexample.) -/
theorem C3_pd_validates :
    (∀ (env : PDEnv) (passed : Bool) (fs : FS) (url : String),
      ((env.httpFetch url).1 = 200 → startsWithMagic (env.httpFetch url).2 = false) →
      (PD_download_pdf env passed fs url).1 = false ∧
      (PD_download_pdf env passed fs url).2.2.1 = fs) ∧
    (∀ (env : PDEnv) (passed : Bool) (fs : FS) (urls : List String) (u : String),
      u ∈ urls →
      PDEv.navigate u ∈ (PD_download_list env passed fs urls).2.2.2) := by
  constructor
  · intro env passed fs url h
    unfold PD_download_pdf
    have hcond : ((env.httpFetch url).1 == 200
        && startsWithMagic (env.httpFetch url).2) = false := by
      by_cases h200 : (env.httpFetch url).1 = 200
      · simp [h200, h h200]
      · simp [h200]
    by_cases hh : env.pageIsHtml url = true <;>
      by_cases hg : (env.hasGate && !passed) = true <;>
      simp [hh, hg, hcond]
  · intro env passed fs urls u hu
    exact PD_list_nav_mem env urls passed fs u hu

/-- Witness for C3: a concrete non-PDF response is rejected with the
directory unchanged, and a concrete batch navigates to its URL. -/
theorem C3_witness :
    ((PD_download_pdf ⟨false, fun _ => true, fun _ => (200, [60, 104])⟩ true []
        "https://h/a.pdf").1 = false ∧
     (PD_download_pdf ⟨false, fun _ => true, fun _ => (200, [60, 104])⟩ true []
        "https://h/a.pdf").2.2.1 = []) ∧
    PDEv.navigate "https://h/a.pdf" ∈
      (PD_download_list ⟨false, fun _ => true, fun _ => (200, [60, 104])⟩ true []
        ["https://h/a.pdf", "https://h/b.pdf"]).2.2.2 := by
  constructor
  · exact C3_pd_validates.1 _ _ _ _ (by decide)
  · exact C3_pd_validates.2 _ _ _ _ _ (by decide)

/-! ## C2 — reference-store dedup -/

/-- Claim C2, counterexample.  `save_urls_to_file`
(`src/epscraper/supersearcher.py`) performs no deduplication: appending
`["a", "a"]` to an empty log stores the URL twice, the reported count is 2
while the number of distinct not-yet-seen URLs is 1, and reading the log
back yields `"a"` twice. -/
theorem C2_counterexample :
    save_urls_append [] ["a", "a"] = ["a", "a"] ∧
    save_urls_reported ["a", "a"] = 2 ∧
    spec_distinctNewCount [] ["a", "a"] = 1 ∧
    (load_all (save_urls_append [] ["a", "a"])).count "a" = 2 := by
  decide

/-- Claim C2, amended: the append operation writes every given URL to the
log, duplicates included — the multiplicity of any URL in the log grows by
its multiplicity in the input, the reported count is the raw input length,
and the `supermain.py` variant replaces the log with exactly the given
URLs. -/
theorem C2_append_no_dedup (log urls : List String) (u : String) :
    (load_all (save_urls_append log urls)).count u
      = (load_all log).count u + urls.count u ∧
    (load_all (save_urls_write log urls)).count u = urls.count u ∧
    save_urls_reported urls = urls.length := by
  exact ⟨List.count_append u log urls, rfl, rfl⟩

/-! ## C9 — anchor extraction rule -/

/-- Claim C9, counterexample.  Both extraction routines compare the `.pdf`
suffix case-sensitively: an href ending in `.PDF` — whose lower-casing
does end with `.pdf` — is extracted by neither
`PDFSearcher.extract_pdf_urls` (`src/epscraper/supersearcher.py`) nor
`scrape_pdf_urls` (`src/superscraper.py`), contradicting the claimed
case-insensitive comparison. -/
theorem C9_counterexample :
    pyEndsWith (pyLower "https://h/a.PDF") ".pdf" = true ∧
    extract_pdf_urls [some "https://h/a.PDF"] = [] ∧
    pyEndsWith (pyLower (urljoin "https://h/d/" "a.PDF")) ".pdf" = true ∧
    scrape_pdf_urls "https://h/d/" ["a.PDF"] = [] := by
  decide

/-- Claim C9, amended: an anchor is counted iff its href passes a
case-sensitive `.pdf` suffix test — in `extract_pdf_urls` the test is on
the browser-resolved href attribute, which must be present and non-empty;
in `scrape_pdf_urls` the test is on the raw href before resolution, and
the kept URL is the href resolved against the page URL. -/
theorem C9_extraction_rule :
    (∀ (links : List (Option String)) (u : String),
      u ∈ extract_pdf_urls links ↔
        some u ∈ links ∧ u ≠ "" ∧ pyEndsWith u ".pdf" = true) ∧
    (∀ (pageUrl : String) (hrefs : List String) (v : String),
      v ∈ scrape_pdf_urls pageUrl hrefs ↔
        ∃ h, h ∈ hrefs ∧ pyEndsWith h ".pdf" = true ∧ v = urljoin pageUrl h) := by
  constructor
  · intro links u
    simp only [extract_pdf_urls, List.mem_filterMap]
    constructor
    · rintro ⟨h, hmem, hf⟩
      cases h with
      | none => simp at hf
      | some s =>
        by_cases hs : s = ""
        · simp [hs] at hf
        · by_cases hp : pyEndsWith s ".pdf" = true
          · have : s = u := by simpa [hs, hp] using hf
            subst this
            exact ⟨hmem, hs, hp⟩
          · simp [hs, hp] at hf
    · rintro ⟨hmem, hs, hp⟩
      exact ⟨some u, hmem, by simp [hs, hp]⟩
  · intro pageUrl hrefs v
    simp only [scrape_pdf_urls, List.mem_filterMap]
    constructor
    · rintro ⟨h, hmem, hf⟩
      by_cases hp : pyEndsWith h ".pdf" = true
      · exact ⟨h, hmem, hp, by simpa [hp] using hf.symm⟩
      · simp [hp] at hf
    · rintro ⟨h, hmem, hp, hv⟩
      exact ⟨h, hmem, by simp [hp, hv]⟩

/-- Witness for C9: a concrete lowercase href is counted by both
routines. -/
theorem C9_witness :
    "https://h/b.pdf" ∈ extract_pdf_urls [some "https://h/b.pdf"] ∧
    urljoin "https://h/d/" "x.pdf" ∈ scrape_pdf_urls "https://h/d/" ["x.pdf"] := by
  constructor
  · exact (C9_extraction_rule.1 _ _).mpr ⟨by decide, by decide, by decide⟩
  · exact (C9_extraction_rule.2 _ _ _).mpr ⟨"x.pdf", by decide, by decide, rfl⟩

/-! ## Traversal lemmas for `search_and_extract` -/

/-- Every event of the skip loop is a next-click. -/
lemma skipLoop_events (L : Listing) (startPage : Nat) :
    ∀ (fuel page : Nat) (ev : SEv), ev ∈ (skipLoop L startPage fuel page).2 →
      ∃ q, ev = SEv.clickNext q := by
  intro fuel
  induction fuel with
  | zero => intro page ev h; simp [skipLoop] at h
  | succ n ih =>
    intro page ev h
    by_cases hc : page < startPage ∧ L.hasNext page = true
    · by_cases hk : L.clickOk page = true
      · simp [skipLoop, hc.1, hc.2, hk] at h
        rcases h with h | h
        · exact ⟨page, h⟩
        · exact ih _ ev h
      · simp [skipLoop, hc.1, hc.2, hk] at h
        exact ⟨page, h⟩
    · simp [skipLoop, hc] at h

/-- If the skip loop hands a page over for extraction, that page does not
exceed `start_page`, and it either reached `start_page` or ran out of next
controls. -/
lemma skipLoop_result (L : Listing) (startPage : Nat) :
    ∀ (fuel page : Nat), page ≤ startPage →
      ∀ q, (skipLoop L startPage fuel page).1 = some q →
        q ≤ startPage ∧ (startPage ≤ q ∨ L.hasNext q = false) := by
  intro fuel
  induction fuel with
  | zero => intro page _ q h; simp [skipLoop] at h
  | succ n ih =>
    intro page hpage q h
    by_cases hc : page < startPage ∧ L.hasNext page = true
    · by_cases hk : L.clickOk page = true
      · simp [skipLoop, hc.1, hc.2, hk] at h
        exact ih (page + 1) hc.1 q h
      · simp [skipLoop, hc.1, hc.2, hk] at h
    · simp [skipLoop, hc] at h
      have hq : q = page := by omega
      subst hq
      rcases Nat.lt_or_ge q startPage with hlt | hge
      · refine ⟨hpage, Or.inr ?_⟩
        rcases Bool.eq_false_or_eq_true (L.hasNext q) with ht | hf
        · exact absurd ⟨hlt, ht⟩ hc
        · exact hf
      · exact ⟨hpage, Or.inl hge⟩

/-- Pages extracted by the main loop lie strictly beyond the entry page
and never beyond `end_page`. -/
lemma extractLoop_extract_mem (L : Listing) (e : Nat) :
    ∀ (fuel page p : Nat),
      SEv.extract p ∈ (extractLoop L (some e) fuel page).2 →
      page < p ∧ p ≤ e := by
  intro fuel
  induction fuel with
  | zero => intro page p h; simp [extractLoop] at h
  | succ n ih =>
    intro page p h
    by_cases hn : L.hasNext page = true
    · by_cases he : reachedEnd (some e) page = true
      · simp [extractLoop, hn, he] at h
      · have hlt : page < e := by
          simp only [reachedEnd, decide_eq_true_eq] at he
          omega
        by_cases hk : L.clickOk page = true
        · simp [extractLoop, hn, he, hk] at h
          rcases h with h | h
          · omega
          · have := ih (page + 1) p h
            omega
        · simp [extractLoop, hn, he, hk] at h
    · simp [extractLoop, hn] at h

/-- The main loop does nothing on a page without a next control. -/
lemma extractLoop_no_next (L : Listing) (endPage : Option Nat)
    (fuel page : Nat) (h : L.hasNext page = false) :
    extractLoop L endPage fuel page = ([], []) := by
  cases fuel <;> simp [extractLoop, h]

/-- No event of the main loop is a gate check. -/
lemma extractLoop_no_gate (L : Listing) (endPage : Option Nat) :
    ∀ (fuel page : Nat), SEv.gateCheck ∉ (extractLoop L endPage fuel page).2 := by
  intro fuel
  induction fuel with
  | zero => intro page; simp [extractLoop]
  | succ n ih =>
    intro page
    by_cases hn : L.hasNext page = true
    · by_cases he : reachedEnd endPage page = true
      · simp [extractLoop, hn, he]
      · by_cases hk : L.clickOk page = true
        · simp [extractLoop, hn, he, hk]
          exact ih _
        · simp [extractLoop, hn, he, hk]
    · simp [extractLoop, hn]

/-- The page number of an extraction event, if it is one. -/
def extractedPage : SEv → Option Nat
  | .extract p => some p
  | _ => none

/-! ## C4 — pagination bound, concrete scenario -/

/-- Claim C4, confirmed.  On a listing with pages 1..5 where every page
but page 5 has an enabled next control, `search_and_extract` with
`start_page = 2` and `end_page = 4` (for any per-page reference contents)
collects exactly the references of pages 2, 3, 4 in that order; the run's
extraction events are pages 2, 3, 4 in order and the click-next operation
is never invoked while on page 4. -/
theorem C4_pagination_bound (f : Nat → List String) :
    search_and_extract ⟨f, fun p => decide (p < 5), fun _ => true⟩ 2 (some 4) 10
      = (f 2 ++ (f 3 ++ (f 4 ++ [])),
         [.nav, .gateCheck, .search, .clickNext 1, .extract 2,
          .clickNext 2, .extract 3, .clickNext 3, .extract 4]) ∧
    (search_and_extract ⟨f, fun p => decide (p < 5), fun _ => true⟩ 2 (some 4)
      10).2.filterMap extractedPage = [2, 3, 4] ∧
    (search_and_extract ⟨f, fun p => decide (p < 5), fun _ => true⟩ 2 (some 4)
      10).2.count (SEv.clickNext 4) = 0 := by
  refine ⟨rfl, rfl, rfl⟩

/-! ## C5 — start-page skip invariant -/

/-- Claim C5, counterexample.  On a single-page listing (no next control
anywhere), `search_and_extract` with `start_page = 2` cannot click forward,
falls out of the skip loop while still on page 1, and extracts page 1 —
a page strictly below `start_page`, contradicting the claimed invariant. -/
theorem C5_counterexample :
    search_and_extract ⟨fun _ => ["u"], fun _ => false, fun _ => true⟩ 2 none 10
      = (["u"], [.nav, .gateCheck, .search, .extract 1]) ∧
    SEv.extract 1 ∈
      (search_and_extract ⟨fun _ => ["u"], fun _ => false, fun _ => true⟩
        2 none 10).2 ∧
    1 < 2 := by
  decide

/-- Claim C5, amended: with `1 ≤ start_page ≤ end_page`, a page strictly
below `start_page` can be extracted only when it has no next control (the
skip phase ran out of pages before reaching `start_page`; true skipped
pages are only next-clicked through), and no page beyond `end_page` is
ever extracted. -/
theorem C5_skip_invariant (L : Listing) (startPage e fuel p : Nat)
    (hs : 1 ≤ startPage) (hse : startPage ≤ e)
    (hmem : SEv.extract p ∈ (search_and_extract L startPage (some e) fuel).2) :
    (p < startPage → L.hasNext p = false) ∧ p ≤ e := by
  unfold search_and_extract at hmem
  rcases hsk : skipLoop L startPage fuel 1 with ⟨res, evs⟩
  rw [hsk] at hmem
  cases res with
  | none =>
    simp only [List.mem_append, List.mem_cons] at hmem
    rcases hmem with hmem | hmem
    · simp at hmem
    · rcases skipLoop_events L startPage fuel 1 _
        (by rw [hsk]; exact hmem) with ⟨q, hq⟩
      cases hq
  | some q =>
    have hq := skipLoop_result L startPage fuel 1 hs q (by rw [hsk])
    simp only [List.append_assoc, List.mem_append, List.mem_cons] at hmem
    rcases hmem with hmem | hmem | hmem | hmem
    · simp at hmem
    · rcases skipLoop_events L startPage fuel 1 _
        (by rw [hsk]; exact hmem) with ⟨q2, hq2⟩
      cases hq2
    · have hpq : p = q := by
        cases hmem; rfl
      subst hpq
      constructor
      · intro hlt
        rcases hq.2 with hge | hno
        · omega
        · exact hno
      · omega
    · have hex := extractLoop_extract_mem L e fuel q p hmem
      constructor
      · intro hlt
        have hqlt : q < startPage := by omega
        have hno : L.hasNext q = false := by
          rcases hq.2 with hge | hno
          · omega
          · exact hno
        rw [extractLoop_no_next L (some e) fuel q hno] at hmem
        simp at hmem
      · exact hex.2

/-- Witness for C5: on the concrete 1..5 listing with `start_page = 2`,
`end_page = 4`, page 3 is extracted and satisfies the invariant. -/
theorem C5_witness :
    ((3 < 2 →
      (⟨fun _ => ([] : List String), fun p => decide (p < 5), fun _ => true⟩ :
        Listing).hasNext 3 = false) ∧ 3 ≤ 4) :=
  C5_skip_invariant _ 2 4 10 3 (by decide) (by decide) (by decide)

/-! ## C6 — gate amortization -/

/-- Claim C6, confirmed.  Discovery (`PDFSearcher.search_and_extract`)
performs the age-gate check exactly once per run, immediately after the
navigation to the listing root and before the search and any extraction;
and a `PDFDownloader` batch over any non-empty URL list against a gated
site clicks the gate exactly once for the whole batch. -/
theorem C6_gate_amortization :
    (∀ (L : Listing) (sp : Nat) (ep : Option Nat) (fuel : Nat),
      (search_and_extract L sp ep fuel).2.count SEv.gateCheck = 1 ∧
      (search_and_extract L sp ep fuel).2.take 3
        = [SEv.nav, SEv.gateCheck, SEv.search]) ∧
    (∀ (env : PDEnv) (fs : FS) (urls : List String),
      env.hasGate = true → urls ≠ [] →
      (PD_download_list env false fs urls).2.2.2.count PDEv.gateClick = 1) := by
  constructor
  · intro L sp ep fuel
    have hskip : ∀ ev ∈ (skipLoop L sp fuel 1).2, ev ≠ SEv.gateCheck := by
      intro ev hev
      rcases skipLoop_events L sp fuel 1 ev hev with ⟨q, hq⟩
      subst hq
      intro h
      cases h
    unfold search_and_extract
    rcases hsk : skipLoop L sp fuel 1 with ⟨res, evs⟩
    have hevs : ∀ ev ∈ evs, ev ≠ SEv.gateCheck := by
      intro ev hev
      exact hskip ev (by rw [hsk]; exact hev)
    cases res with
    | none =>
      constructor
      · have h0 : evs.count SEv.gateCheck = 0 :=
          List.count_eq_zero.mpr (fun h => (hevs _ h) rfl)
        simp [List.count_append, List.count_cons, h0]
      · rcases evs with _ | ⟨e1, evs1⟩ <;> simp
    | some page =>
      constructor
      · have h0 : evs.count SEv.gateCheck = 0 :=
          List.count_eq_zero.mpr (fun h => (hevs _ h) rfl)
        have h1 : (extractLoop L ep fuel page).2.count SEv.gateCheck = 0 :=
          List.count_eq_zero.mpr (extractLoop_no_gate L ep fuel page)
        simp [List.count_append, List.count_cons, h0, h1]
      · rcases evs with _ | ⟨e1, evs1⟩ <;> simp
  · intro env fs urls hg hne
    rcases urls with _ | ⟨u, rest⟩
    · exact absurd rfl hne
    · have hpassed : (PD_download_pdf env false fs u).2.1 = true :=
        PD_pdf_passed_after env false fs u hg
      have hc1 : (PD_download_pdf env false fs u).2.2.2.count PDEv.gateClick = 1 := by
        rw [PD_pdf_gate_count env false fs u]
        simp [hg]
      have hc0 : (PD_download_list env (PD_download_pdf env false fs u).2.1
          (PD_download_pdf env false fs u).2.2.1 rest).2.2.2.count PDEv.gateClick
          = 0 := by
        rw [hpassed]
        exact PD_list_gate_count_passed env rest _
      simp [PD_download_list, List.count_append, hc1, hc0]

/-- Witness for C6: the discovery part at a concrete listing, and a
concrete two-URL gated batch clicking the gate once. -/
theorem C6_witness :
    ((search_and_extract ⟨fun _ => [], fun _ => false, fun _ => true⟩ 1 none
        3).2.count SEv.gateCheck = 1 ∧
     (search_and_extract ⟨fun _ => [], fun _ => false, fun _ => true⟩ 1 none
        3).2.take 3 = [SEv.nav, SEv.gateCheck, SEv.search]) ∧
    (PD_download_list ⟨true, fun _ => true, fun _ => (200, pdfMagic)⟩ false []
      ["https://h/a.pdf", "https://h/b.pdf"]).2.2.2.count PDEv.gateClick = 1 := by
  constructor
  · exact C6_gate_amortization.1 _ 1 none 3
  · exact C6_gate_amortization.2 _ [] _ rfl (by decide)

/-! ## C7 — work-unit completion ordering -/

/-- In a trace whose prefix holds no completion marks and whose suffix
holds no download attempts, every attempt index precedes every mark
index. -/
lemma attempt_lt_mark (pre post : List MEv)
    (hpre : ∀ e ∈ pre, isMarkEv e = false)
    (hpost : ∀ e ∈ post, isAttemptEv e = false)
    (i j : Nat) (ei ej : MEv)
    (hi : (pre ++ post)[i]? = some ei) (hj : (pre ++ post)[j]? = some ej)
    (ha : isAttemptEv ei = true) (hm : isMarkEv ej = true) : i < j := by
  have hjge : pre.length ≤ j := by
    by_contra hcon
    push_neg at hcon
    rw [List.getElem?_append_left hcon] at hj
    have hmem : ej ∈ pre := List.getElem?_mem hj
    rw [hpre _ hmem] at hm
    cases hm
  have hilt : i < pre.length := by
    by_contra hcon
    push_neg at hcon
    rw [List.getElem?_append_right hcon] at hi
    have hmem : ei ∈ post := List.getElem?_mem hi
    rw [hpost _ hmem] at ha
    cases ha
  omega

/-- No event of a mapped download trace is a completion mark. -/
lemma dl_not_mark (evs : List PDEv) :
    ∀ e ∈ (MEv.dl .browserOpen :: evs.map MEv.dl), isMarkEv e = false := by
  intro e he
  rcases List.mem_cons.mp he with h | h
  · subst h; rfl
  · rcases List.mem_map.mp h with ⟨x, _, hx⟩
    subst hx; rfl

/-- No scrape event is a completion mark. -/
lemma scrape_not_mark (ds : List Nat) :
    ∀ e ∈ ds.map MEv.scrapeUnit, isMarkEv e = false := by
  intro e he
  rcases List.mem_map.mp he with ⟨x, _, hx⟩
  subst hx; rfl

/-- No completion mark is a download attempt. -/
lemma mark_not_attempt (ds : List Nat) :
    ∀ e ∈ ds.map MEv.markCompleted, isAttemptEv e = false := by
  intro e he
  rcases List.mem_map.mp he with ⟨x, _, hx⟩
  subst hx; rfl

/-- Lines that are already stripped, non-empty and not comments survive
the URL-file write/read round trip unchanged. -/
lemma parseUrlLines_id (urls : List String)
    (h : ∀ u ∈ urls, pyStrip u = u ∧ u ≠ "" ∧ pyStartsWith u "#" = false) :
    parseUrlLines urls = urls := by
  unfold parseUrlLines
  have hmap : urls.map pyStrip = urls := by
    have hc := List.map_congr_left (l := urls) (f := pyStrip) (g := id)
      (fun u hu => (h u hu).1)
    simpa using hc
  rw [hmap]
  apply List.filter_eq_self.mpr
  intro u hu
  rcases h u hu with ⟨_, hne, hhash⟩
  simp [hhash, hne]

/-- Claim C7, confirmed.  In every orchestrator run: a fatal download
error leaves no work unit marked completed; every completion mark in the
trace comes strictly after every download attempt; and if any work unit
was marked, every discovered reference (well-formed, as scraped URLs are)
was navigated to during the run. -/
theorem C7_completion_order (env : PDEnv) (fs : FS) (downloaded : List Nat)
    (startN endN : Nat) (scrape : Nat → List String) (fatal : Bool) :
    (fatal = true →
      ∀ n, MEv.markCompleted n ∉
        (supermain env fs downloaded startN endN scrape fatal).2) ∧
    (∀ (i j : Nat) (ei ej : MEv),
      (supermain env fs downloaded startN endN scrape fatal).2[i]? = some ei →
      (supermain env fs downloaded startN endN scrape fatal).2[j]? = some ej →
      isAttemptEv ei = true → isMarkEv ej = true → i < j) ∧
    ((∃ n, MEv.markCompleted n ∈
        (supermain env fs downloaded startN endN scrape fatal).2) →
      (∀ u ∈ collectUrls scrape (datasetsToProcess downloaded startN endN),
        pyStrip u = u ∧ u ≠ "" ∧ pyStartsWith u "#" = false) →
      ∀ u ∈ collectUrls scrape (datasetsToProcess downloaded startN endN),
        MEv.dl (PDEv.navigate u) ∈
          (supermain env fs downloaded startN endN scrape fatal).2) := by
  unfold supermain
  by_cases h1 : endN < startN
  · simp only [if_pos h1]
    refine ⟨fun _ n h => by simp at h, fun i j ei ej hi => by simp at hi, ?_⟩
    rintro ⟨n, hn⟩
    simp at hn
  · simp only [if_neg h1]
    by_cases h2 : (datasetsToProcess downloaded startN endN).isEmpty = true
    · simp only [if_pos h2]
      refine ⟨fun _ n h => by simp at h, fun i j ei ej hi => by simp at hi, ?_⟩
      rintro ⟨n, hn⟩
      simp at hn
    · simp only [if_neg h2]
      by_cases h3 : (collectUrls scrape
          (datasetsToProcess downloaded startN endN)).isEmpty = true
      · simp only [if_pos h3]
        have hnomark : ∀ n, MEv.markCompleted n ∉
            (datasetsToProcess downloaded startN endN).map MEv.scrapeUnit := by
          intro n hn
          rcases List.mem_map.mp hn with ⟨x, _, hx⟩
          cases hx
        refine ⟨fun _ n => hnomark n, ?_, ?_⟩
        · intro i j ei ej hi hj ha hm
          have hmem : ej ∈ (datasetsToProcess downloaded startN endN).map
              MEv.scrapeUnit := List.getElem?_mem hj
          rw [scrape_not_mark _ _ hmem] at hm
          cases hm
        · rintro ⟨n, hn⟩
          exact absurd hn (hnomark n)
      · simp only [if_neg h3]
        by_cases h4 : fatal = true
        · simp only [if_pos h4]
          have hnomark : ∀ n, MEv.markCompleted n ∉
              (datasetsToProcess downloaded startN endN).map MEv.scrapeUnit := by
            intro n hn
            rcases List.mem_map.mp hn with ⟨x, _, hx⟩
            cases hx
          refine ⟨fun _ n => hnomark n, ?_, ?_⟩
          · intro i j ei ej hi hj ha hm
            have hmem : ej ∈ (datasetsToProcess downloaded startN endN).map
                MEv.scrapeUnit := List.getElem?_mem hj
            rw [scrape_not_mark _ _ hmem] at hm
            cases hm
          · rintro ⟨n, hn⟩
            exact absurd hn (hnomark n)
        · simp only [if_neg h4]
          refine ⟨fun hf => absurd hf h4, ?_, ?_⟩
          · intro i j ei ej hi hj ha hm
            refine attempt_lt_mark _ _ ?_
              (mark_not_attempt (datasetsToProcess downloaded startN endN))
              i j ei ej hi hj ha hm
            intro e he
            rcases List.mem_append.mp he with h | h
            · exact scrape_not_mark _ e h
            · exact dl_not_mark _ e h
          · rintro hmk hwf u hu
            have hnav : PDEv.navigate u ∈
                (PD_download_list env false fs (parseUrlLines (collectUrls scrape
                  (datasetsToProcess downloaded startN endN)))).2.2.2 := by
              rw [parseUrlLines_id _ hwf]
              exact PD_list_nav_mem env _ false fs u hu
            refine List.mem_append.mpr (Or.inl (List.mem_append.mpr (Or.inr ?_)))
            exact List.mem_cons_of_mem _ (List.mem_map.mpr ⟨_, hnav, rfl⟩)

/-- Witness for C7: a concrete run in which the attempt at index 2
precedes the mark at index 3, and the discovered reference was navigated
to. -/
theorem C7_witness :
    (2 : Nat) < 3 ∧
    MEv.dl (PDEv.navigate "https://h/a.pdf") ∈
      (supermain ⟨false, fun _ => false, fun _ => (404, [])⟩ [] [] 1 1
        (fun _ => ["https://h/a.pdf"]) false).2 := by
  have h := C7_completion_order ⟨false, fun _ => false, fun _ => (404, [])⟩ [] []
    1 1 (fun _ => ["https://h/a.pdf"]) false
  constructor
  · exact h.2.1 2 3 (MEv.dl (PDEv.navigate "https://h/a.pdf"))
      (MEv.markCompleted 1) (by decide) (by decide) (by decide) (by decide)
  · exact h.2.2 ⟨1, by decide⟩ (by decide) "https://h/a.pdf" (by decide)

/-! ## C8 — orchestrator exit code -/

/-- Claim C8, counterexample.  With dataset 1 not yet completed and a
scrape that finds no PDF URLs, `main` (`src/epscrape/supermain.py`) hits
the `total_pdfs == 0` path and exits 0 — although no download succeeded
and the requested range was not already complete, contradicting the
claimed exit-code contract. -/
theorem C8_counterexample :
    supermain ⟨false, fun _ => false, fun _ => (404, [])⟩ [] [] 1 1
      (fun _ => []) false = (0, [MEv.scrapeUnit 1]) ∧
    datasetsToProcess [] 1 1 = [1] ∧
    collectUrls (fun _ => []) (datasetsToProcess [] 1 1) = [] := by
  decide

/-- Claim C8, amended: for a valid range, the orchestrator exits 0 iff
every work unit of the range was already complete, or discovery found
zero PDF URLs, or the download phase ran without a fatal error and at
least one download succeeded; in every other case (zero successes with a
non-empty URL list, or a fatal download error) it exits non-zero. -/
theorem C8_exit_code (env : PDEnv) (fs : FS) (downloaded : List Nat)
    (startN endN : Nat) (scrape : Nat → List String) (fatal : Bool)
    (h : startN ≤ endN) :
    (supermain env fs downloaded startN endN scrape fatal).1 = 0 ↔
      (datasetsToProcess downloaded startN endN = [] ∨
       collectUrls scrape (datasetsToProcess downloaded startN endN) = [] ∨
       (fatal = false ∧ 0 < (PD_download_list env false fs
         (parseUrlLines (collectUrls scrape
           (datasetsToProcess downloaded startN endN)))).1)) := by
  unfold supermain
  have h1 : ¬ endN < startN := by omega
  simp only [if_neg h1]
  by_cases h2 : (datasetsToProcess downloaded startN endN).isEmpty = true
  · have h2e : datasetsToProcess downloaded startN endN = [] :=
      List.isEmpty_iff.mp h2
    simp [if_pos h2, h2e]
  · have h2e : ¬ datasetsToProcess downloaded startN endN = [] := by
      intro hcon
      exact h2 (by simp [hcon])
    simp only [if_neg h2]
    by_cases h3 : (collectUrls scrape
        (datasetsToProcess downloaded startN endN)).isEmpty = true
    · have h3e : collectUrls scrape (datasetsToProcess downloaded startN endN)
          = [] := List.isEmpty_iff.mp h3
      simp [if_pos h3, h3e]
    · have h3e : ¬ collectUrls scrape (datasetsToProcess downloaded startN endN)
          = [] := by
        intro hcon
        exact h3 (by simp [hcon])
      simp only [if_neg h3]
      by_cases h4 : fatal = true
      · simp [if_pos h4, h2e, h3e, h4]
      · have h4e : fatal = false := by
          rcases Bool.eq_false_or_eq_true fatal with ht | hf
          · exact absurd ht h4
          · exact hf
        simp only [if_neg h4]
        by_cases h5 : 0 < (PD_download_list env false fs
            (parseUrlLines (collectUrls scrape
              (datasetsToProcess downloaded startN endN)))).1
        · simp [if_pos h5, h2e, h3e, h4e, h5]
        · simp [if_neg h5, h2e, h3e, h4e, h5]

/-- Witness for C8: the amended contract at a concrete run with one
successful download. -/
theorem C8_witness :
    ((supermain ⟨false, fun _ => true, fun _ => (200, pdfMagic)⟩ [] [] 1 1
        (fun _ => ["https://h/a.pdf"]) false).1 = 0 ↔
      (datasetsToProcess [] 1 1 = [] ∨
       collectUrls (fun _ => ["https://h/a.pdf"]) (datasetsToProcess [] 1 1) = [] ∨
       (false = false ∧ 0 < (PD_download_list
         ⟨false, fun _ => true, fun _ => (200, pdfMagic)⟩ false []
         (parseUrlLines (collectUrls (fun _ => ["https://h/a.pdf"])
           (datasetsToProcess [] 1 1)))).1))) :=
  C8_exit_code ⟨false, fun _ => true, fun _ => (200, pdfMagic)⟩ [] [] 1 1
    (fun _ => ["https://h/a.pdf"]) false (by decide)

/-! ## C10 — precondition check of `download_pdfs` -/

/-- Claim C10, confirmed.  If any URL file named in the argument list does
not exist, `download_pdfs` (`src/superdownloader.py`) raises
`FileNotFoundError` naming the first missing file, before the browser
session is opened and before anything is downloaded or written: the run
produces no events at all and the destination directory is returned
unchanged. -/
theorem C10_missing_url_file (env : PDEnv) (ufs : List (String × List String))
    (urlFiles : List String) (fs : FS)
    (h : ∃ f ∈ urlFiles, List.lookup f ufs = none) :
    ∃ m, m ∈ urlFiles ∧ List.lookup m ufs = none ∧
      download_pdfs env ufs urlFiles fs
        = (.error ("URL file not found: " ++ m), fs, []) := by
  have hsome : (urlFiles.find? (fun f => (List.lookup f ufs).isNone)).isSome := by
    rw [List.find?_isSome]
    rcases h with ⟨f, hf, hnone⟩
    exact ⟨f, hf, by simp [hnone]⟩
  rcases hm : urlFiles.find? (fun f => (List.lookup f ufs).isNone) with _ | m
  · rw [hm] at hsome
    cases hsome
  · refine ⟨m, List.mem_of_find?_eq_some hm, ?_, ?_⟩
    · have hp := List.find?_some hm
      simpa using hp
    · unfold download_pdfs
      rw [hm]

/-- Witness for C10: a concrete call naming a missing URL file. -/
theorem C10_witness :
    ∃ m, m ∈ ["urls.txt", "missing.txt"] ∧
      List.lookup m [("urls.txt", ["https://h/a.pdf"])] = none ∧
      download_pdfs ⟨false, fun _ => false, fun _ => (404, [])⟩
        [("urls.txt", ["https://h/a.pdf"])] ["urls.txt", "missing.txt"] []
        = (.error ("URL file not found: " ++ m), [], []) :=
  C10_missing_url_file ⟨false, fun _ => false, fun _ => (404, [])⟩
    [("urls.txt", ["https://h/a.pdf"])] ["urls.txt", "missing.txt"] []
    ⟨"missing.txt", by decide, by decide⟩

end Epscraper
